import Mathlib

/-!
Shallow embedding of the AiChatSummarizer extraction core
(src/core/parser/{stableIds,normalize,selectors,parseChatGpt}.ts) and the
data model (src/core/model/chat.ts), together with theorems settling the
frozen specification claims.

Modelling notes, applying throughout:
* JS strings are modelled as Lean `String` / `List Char`, with
  `charCodeAt`/case folding taken per character (`Char.toNat`,
  `Char.toLower`).  All inputs of interest are in the basic plane, where
  this coincides with UTF-16 code units.
* JS 32-bit arithmetic (`x | 0`, `^`, `>>> 0`) is modelled on `Nat` with
  explicit `% 2 ^ 32`: the signed two's-complement accumulator of the
  source and the unsigned residue are congruent modulo `2 ^ 32`, and the
  products involved (at most `2 ^ 31 * 33 < 2 ^ 53`) are exact in JS
  number arithmetic, so the bit patterns agree step by step.
* The DOM is modelled as an inductive tree of elements and text nodes;
  elements carry a lowercase tag (HTML `tagName` uppercases, which is
  applied where the source reads `tagName`), an attribute list and
  children.  Layout is not modelled: `clientHeight` of a node in a
  layout-free tree is 0, exactly as in the repository's own unit-test DOM.
-/

/-- JS whitespace (`\s`, `String.prototype.trim`): the ASCII whitespace
characters plus NBSP and the BOM, which covers every character the
embedded code paths can meet. -/
def jsWs (c : Char) : Bool :=
  c = ' ' || c = '\t' || c = '\n' || c = '\r' || c = '\x0b' || c = '\x0c' ||
  c = ' ' || c = '﻿'

/-- JS regex word character `\w` = `[A-Za-z0-9_]`. -/
def isWordChar (c : Char) : Bool :=
  c.isAlpha || c.isDigit || c = '_'

/-- Case-insensitive character comparison (ASCII simple folding, as JS
`/i` does on the ASCII tokens used here). -/
def ciEq (a b : Char) : Bool :=
  a.toLower = b.toLower

/-- Does `l` start with `tok`, case-insensitively? -/
def startsWithCI : List Char → List Char → Bool
  | [], _ => true
  | _ :: _, [] => false
  | t :: ts, c :: cs => ciEq c t && startsWithCI ts cs

/-- Boundary check `\b` after a token: the next character, if any, is not a word
character. -/
def noWordHead : List Char → Bool
  | [] => true
  | c :: _ => !isWordChar c

/-- First regex pass of `normalizeWhitespace`: `.replace(/\r\n/g, '\n')`. -/
def replCRLF : List Char → List Char
  | '\r' :: '\n' :: rest => '\n' :: replCRLF rest
  | c :: rest => c :: replCRLF rest
  | [] => []

/-- Space/tab, the class `[ \t]` of the third pass. -/
def isSpaceTab (c : Char) : Bool :=
  c = ' ' || c = '\t'

/-- Third regex pass of `normalizeWhitespace`: `.replace(/[ \t]+/g, ' ')`,
collapsing each run of spaces/tabs to a single space. -/
def collapseST : List Char → List Char
  | [] => []
  | [c] => if isSpaceTab c then [' '] else [c]
  | c :: d :: rest =>
    if isSpaceTab c then
      if isSpaceTab d then collapseST (d :: rest)
      else ' ' :: collapseST (d :: rest)
    else c :: collapseST (d :: rest)

/-- JS `String.prototype.trim` on a character list. -/
def trimList (l : List Char) : List Char :=
  ((l.dropWhile jsWs).reverse.dropWhile jsWs).reverse

/-- Source `normalizeWhitespace` (stableIds.ts): normalize line endings,
collapse spaces/tabs, trim. -/
def normalizeWhitespace (s : String) : String :=
  let l1 := replCRLF s.data
  let l2 := l1.map (fun c => if c = '\r' then '\n' else c)
  String.mk (trimList (collapseST l2))

/-- JS `String.prototype.trim` on strings (used for `.trim()` calls that
are not part of `normalizeWhitespace`). -/
def jsTrim (s : String) : String :=
  String.mk (trimList s.data)

/-- Contiguous-sublist test on character lists. -/
def infixOfList (sub : List Char) : List Char → Bool
  | [] => sub.isEmpty
  | c :: rest => sub.isPrefixOf (c :: rest) || infixOfList sub rest

/-- Substring test, case-sensitive (JS `String.prototype.includes`, CSS
`[attr*=value]`). -/
def strContains (s sub : String) : Bool :=
  infixOfList sub.data s.data

/-- ASCII lowercase of a string (JS `toLowerCase` on the ASCII data the
code paths handle). -/
def lowerStr (s : String) : String :=
  String.mk (s.data.map Char.toLower)

/-- One step of the djb2-style hash of source `hashString`:
`hash = (hash * 33) ^ str.charCodeAt(i)` with JS `ToInt32` truncation,
rendered on the unsigned residue modulo `2 ^ 32`. -/
def hashStep (acc : Nat) (c : Char) : Nat :=
  Nat.xor (acc * 33 % 4294967296) c.toNat % 4294967296

/-- The 32-bit accumulator of source `hashString`, seeded at 5381. -/
def hashAccum (s : String) : Nat :=
  s.data.foldl hashStep 5381

/-- Base-36 digit: `0`-`9` then lowercase `a`-`z`, as JS
`Number.prototype.toString(36)`. -/
def b36digit (n : Nat) : Char :=
  if n < 10 then Char.ofNat (48 + n) else Char.ofNat (87 + n)

/-- Digit loop of base-36 rendering, with explicit fuel (the value
strictly shrinks each round, so `n + 1` rounds always suffice). -/
def b36Go : Nat → Nat → List Char → List Char
  | 0, _, acc => acc
  | fuel + 1, n, acc =>
    if n < 36 then b36digit n :: acc
    else b36Go fuel (n / 36) (b36digit (n % 36) :: acc)

/-- JS `n.toString(36)` for a nonnegative integer: lowercase base-36. -/
def toBase36 (n : Nat) : String :=
  String.mk (b36Go (n + 1) n [])

/-- Source `hashString` (stableIds.ts): djb2-style accumulate, finalize
with `>>> 0` (modelled as `% 2 ^ 32`), render in base-36. -/
def hashString (s : String) : String :=
  toBase36 (hashAccum s % 4294967296)

/-- The `MessagePart` discriminated union of src/core/model/chat.ts.
`Option String` stands for `string | null`; the heading level is a `Nat`
(the source narrows it to 1..6 at construction sites). -/
inductive MessagePart where
  | text (text : String)
  | code (lang : Option String) (code : String)
  | list (ordered : Bool) (items : List String)
  | quote (text : String)
  | link (text : String) (href : String)
  | heading (level : Nat) (text : String)
  | imageRef (alt : Option String) (src : Option String)
  | unknown (rawText : String)
deriving DecidableEq, Repr

/-- JS `x || d` on a nullable string: `null` and `""` fall through to the
default. -/
def jsOrStr (o : Option String) (d : String) : String :=
  match o with
  | none => d
  | some s => if s = "" then d else s

/-- JS template interpolation of a `string | null` (`null` prints as the
four characters `null`). -/
def jsInterpNullable (o : Option String) : String :=
  match o with
  | some s => s
  | none => "null"

/-- JS `Array.prototype.join(sep)`. -/
def joinSep (sep : String) : List String → String
  | [] => ""
  | [x] => x
  | x :: xs => x ++ sep ++ joinSep sep xs

/-- The tagged fragment one part contributes in source
`normalizePartsText` (the `switch` over part types). -/
def partFrag : MessagePart → String
  | .text t => normalizeWhitespace t
  | .code lang c => "[CODE:" ++ jsOrStr lang "plain" ++ "]" ++ normalizeWhitespace c
  | .list ordered items =>
      "[LIST:" ++ (if ordered then "ol" else "ul") ++ "]" ++
        joinSep "|" (items.map normalizeWhitespace)
  | .quote t => "[QUOTE]" ++ normalizeWhitespace t
  | .link t href => "[LINK:" ++ href ++ "]" ++ normalizeWhitespace t
  | .heading level t => "[H" ++ toString level ++ "]" ++ normalizeWhitespace t
  | .imageRef alt src =>
      "[IMG:" ++ jsInterpNullable src ++ "]" ++ (alt.getD "")
  | .unknown raw => normalizeWhitespace raw

/-- Source `normalizePartsText` (stableIds.ts): map each part to its
tagged fragment and join with `\n`. -/
def normalizePartsText (parts : List MessagePart) : String :=
  joinSep "\n" (parts.map partFrag)

/-- One global pass of `String.prototype.replace(pattern, '')` for a
word-boundary-delimited pattern.  `pat l` returns the length of a match
starting at the head of `l`, if any; `prevWord` tracks whether the
previous character of the original string is a word character (the `\b`
before the match).  After a removal the previous original character is
the last character of the match, which for every pattern used here is a
word character, so the flag becomes `true`.  The fuel argument (the
string length at every call site; each step consumes at least one
character) makes the recursion structural. -/
def remPatGo (pat : List Char → Option Nat) :
    Nat → Bool → List Char → List Char
  | 0, _, l => l
  | fuel + 1, prevWord, l =>
    match l with
    | [] => []
    | c :: rest =>
      match (if prevWord then none else pat (c :: rest)) with
      | some n =>
        if 0 < n then remPatGo pat fuel true (List.drop n (c :: rest))
        else c :: remPatGo pat fuel (isWordChar c) rest
      | none => c :: remPatGo pat fuel (isWordChar c) rest

/-- Matcher for a literal token followed by `\b` (patterns such as
`/\bcopy\b/gi`; the leading `\b` is handled by `remPatGo`). -/
def tokenPat (tok : String) (l : List Char) : Option Nat :=
  if startsWithCI tok.data l && noWordHead (l.drop tok.data.length) then
    some tok.data.length
  else none

/-- Matcher for the tail `\s*(up|down)\b` of the thumbs pattern.  The
greedy `\s*` is deterministic here because no whitespace character can
begin `up` or `down`. -/
def upDownPat (l : List Char) : Option Nat :=
  let k := (l.takeWhile jsWs).length
  let r := l.drop k
  if startsWithCI "up".data r && noWordHead (r.drop 2) then some (k + 2)
  else if startsWithCI "down".data r && noWordHead (r.drop 4) then some (k + 4)
  else none

/-- Matcher for `/\bthumb(s)?\s*(up|down)\b/gi`: the optional `s` is tried
greedily first, with backtracking to the plain branch, as the regex
engine does. -/
def thumbPat (l : List Char) : Option Nat :=
  if startsWithCI "thumb".data l then
    let after := l.drop 5
    (match after with
     | c :: r2 =>
       if ciEq c 's' then (upDownPat r2).map (fun n => 6 + n) else none
     | [] => none)
    <|> (upDownPat after).map (fun n => 5 + n)
  else none

/-- The pattern `/^\s*[\d]+\s*\/\s*[\d]+\s*$/gi`: anchored at both ends
without the `m` flag, it matches only when the whole string is a counter
such as `1 / 20`, possibly surrounded by whitespace. -/
def isWholeCounter (l : List Char) : Bool :=
  let r1 := l.dropWhile jsWs
  let d1 := r1.takeWhile Char.isDigit
  let r2 := (r1.drop d1.length).dropWhile jsWs
  match r2 with
  | '/' :: r3 =>
    let r4 := r3.dropWhile jsWs
    let d2 := r4.takeWhile Char.isDigit
    !d1.isEmpty && !d2.isEmpty && ((r4.drop d2.length).dropWhile jsWs).isEmpty
  | _ => false

/-- Source `stripUIText` (stableIds.ts): apply the fixed ordered
`UI_NOISE_PATTERNS` list, each as a global case-insensitive
`replace(pattern, '')`. -/
def stripUIText (s : String) : String :=
  let l0 := s.data
  let l1 := remPatGo (tokenPat "copy") l0.length false l0
  let l2 := remPatGo (tokenPat "copied") l1.length false l1
  let l3 := remPatGo (tokenPat "regenerate") l2.length false l2
  let l4 := remPatGo (tokenPat "edit") l3.length false l3
  let l5 := remPatGo thumbPat l4.length false l4
  let l6 := remPatGo (tokenPat "share") l5.length false l5
  let l7 := remPatGo (tokenPat "continue") l6.length false l6
  let l8 := if isWholeCounter l7 then [] else l7
  String.mk l8

/-- Source `generateMessageId` (stableIds.ts). -/
def generateMessageId (role : String) (parts : List MessagePart) (index : Nat) :
    String :=
  let normalizedText := normalizePartsText parts
  let cleanedText := stripUIText normalizedText
  let hashInput := role ++ ":" ++ cleanedText ++ ":" ++ toString index
  let hash := hashString hashInput
  "msg_" ++ hash ++ "_" ++ toString index

/-! ## DOM model

A read-only tree of elements and text nodes.  Elements store their tag in
lowercase (the convention of the source HTML snippets; `Element.tagName`
uppercases and is modelled by uppercasing on read).  An element is
addressed inside a fixed root by its path of child indices, which models
DOM node identity. -/

inductive Dom where
  | elem (tag : String) (attrs : List (String × String)) (children : List Dom)
  | text (s : String)
deriving Repr

/-- Is this node an element? -/
def Dom.isElem : Dom → Bool
  | .elem _ _ _ => true
  | .text _ => false

/-- The element's tag (lowercase); `""` for text nodes. -/
def tagOf : Dom → String
  | .elem t _ _ => t
  | .text _ => ""

/-- All child nodes. -/
def childrenOf : Dom → List Dom
  | .elem _ _ cs => cs
  | .text _ => []

/-- DOM `Element.getAttribute`. -/
def getAttr (d : Dom) (name : String) : Option String :=
  match d with
  | .elem _ attrs _ => (attrs.find? (fun p => p.1 = name)).map (fun p => p.2)
  | .text _ => none

/-- DOM `Element.className` (the empty string when no class attribute). -/
def className (d : Dom) : String :=
  (getAttr d "class").getD ""

mutual

/-- DOM `Node.textContent`: concatenation of all descendant text data. -/
def textContent : Dom → String
  | .text s => s
  | .elem _ _ cs => textContentList cs

/-- Text content of a child list, in order. -/
def textContentList : List Dom → String
  | [] => ""
  | d :: ds => textContent d ++ textContentList ds

end

/-- Node at a path of child indices. -/
def sub : Dom → List Nat → Option Dom
  | d, [] => some d
  | .elem _ _ cs, i :: p => (cs.get? i).bind (fun c => sub c p)
  | .text _, _ :: _ => none

/-- Total variant of `sub` (paths produced by the query engine always
resolve; unresolvable paths give a dummy text node). -/
def subD (root : Dom) (p : List Nat) : Dom :=
  (sub root p).getD (.text "")

mutual

/-- Paths of all strict-descendant elements of a node, in document
(pre-order) order.  Text nodes occupy child indices but are not
selectable, matching `querySelectorAll` returning only elements. -/
def descPaths : Dom → List (List Nat)
  | .text _ => []
  | .elem _ _ cs => descPathsList 0 cs

/-- Helper for `descPaths`, walking a child list from index `i`. -/
def descPathsList (i : Nat) : List Dom → List (List Nat)
  | [] => []
  | c :: cs =>
    (if c.isElem then [i] :: (descPaths c).map (fun p => i :: p) else []) ++
      descPathsList (i + 1) cs

end

/-- The CSS selectors used by the source, as an AST.  `invalid` stands
for a syntactically invalid selector string, which the source treats as a
silent non-match via try/catch. -/
inductive Sel where
  | tag (t : String)
  | attrEq (name val : String)
  | attrContains (name sub : String)
  | hasAttr (name : String)
  | classWord (c : String)
  | idIs (v : String)
  | comp (a b : Sel)
  | desc (anc target : Sel)
  | child (par target : Sel)
  | scopeChild (target : Sel)
  | invalid

/-- Split a class attribute value into words (ASCII whitespace). -/
def classWords (s : String) : List String :=
  ((s.data.splitOnP jsWs).map String.mk).filter (fun w => w ≠ "")

/-- Does the element at path `p` inside `root` match selector `s`?
Ancestors are taken inside `root` (the query root itself may serve as the
ancestor part of a combinator, as in element-scoped `querySelectorAll`). -/
def matchesAt (root : Dom) (p : List Nat) : Sel → Bool
  | .tag t => tagOf (subD root p) = t
  | .attrEq name val => getAttr (subD root p) name = some val
  | .attrContains name needle =>
    match getAttr (subD root p) name with
    | some v => strContains v needle
    | none => false
  | .hasAttr name => (getAttr (subD root p) name).isSome
  | .classWord c => (classWords (className (subD root p))).contains c
  | .idIs v => getAttr (subD root p) "id" = some v
  | .comp a b => matchesAt root p a && matchesAt root p b
  | .desc anc target =>
    matchesAt root p target &&
      (List.range p.length).any (fun k => matchesAt root (p.take k) anc)
  | .child par target =>
    matchesAt root p target &&
      (match p with
       | [] => false
       | _ :: _ => matchesAt root p.dropLast par)
  | .scopeChild target => p.length = 1 && matchesAt root p target
  | .invalid => false

/-- DOM `querySelectorAll` over a comma-separated selector group: all
strict-descendant elements matching some alternative, in document
order. -/
def qsaPaths (root : Dom) (g : List Sel) : List (List Nat) :=
  (descPaths root).filter (fun p => g.any (fun s => matchesAt root p s))

/-- DOM `querySelector`: first match in document order, as a path. -/
def qsFirst (root : Dom) (g : List Sel) : Option (List Nat) :=
  (qsaPaths root g).head?

/-- Context-free match of a simple (combinator-free) selector against a
node itself, used for `Element.matches` on the simple selectors of the
source and for subtree rewriting.  Combinator selectors never reach this
function in the embedded code paths. -/
def selfMatch (d : Dom) : Sel → Bool
  | .tag t => tagOf d = t
  | .attrEq name val => getAttr d name = some val
  | .attrContains name needle =>
    match getAttr d name with
    | some v => strContains v needle
    | none => false
  | .hasAttr name => (getAttr d name).isSome
  | .classWord c => (classWords (className d)).contains c
  | .idIs v => getAttr d "id" = some v
  | .comp a b => selfMatch d a && selfMatch d b
  | .desc _ _ => false
  | .child _ _ => false
  | .scopeChild _ => false
  | .invalid => false

/-- Selector configuration (selectors.ts `SelectorConfig`): each entry of
`primary`/`fallback` is one selector string, itself a comma group. -/
structure SelectorConfig where
  primary : List (List Sel)
  fallback : List (List Sel)
  heuristic : Option (Dom → Bool) := none

/-- Apply the optional heuristic to the element at `p` (absent heuristic
accepts). -/
def heurOK (root : Dom) (h : Option (Dom → Bool)) (p : List Nat) : Bool :=
  match h with
  | none => true
  | some f => f (subD root p)

/-- Source `findElement` (selectors.ts): try each selector of a tier in
order, take its first structural match, accept it only if the heuristic
passes, else move to the next selector; primary tier first, then
fallback. -/
def tryTier (root : Dom) (h : Option (Dom → Bool)) :
    List (List Sel) → Option (List Nat)
  | [] => none
  | g :: gs =>
    match qsFirst root g with
    | some p => if heurOK root h p then some p else tryTier root h gs
    | none => tryTier root h gs

/-- Source `findElement`. -/
def findElement (root : Dom) (cfg : SelectorConfig) : Option (List Nat) :=
  match tryTier root cfg.heuristic cfg.primary with
  | some p => some p
  | none => tryTier root cfg.heuristic cfg.fallback

/-- Inner `matches.forEach` of source `findElements`: fold one selector's
match list into the `(elements, seen)` state, keeping a match if it is
unseen and passes the heuristic. -/
def addMatches (root : Dom) (h : Option (Dom → Bool))
    (st : List (List Nat) × List (List Nat)) :
    List (List Nat) → List (List Nat) × List (List Nat)
  | [] => st
  | p :: rest =>
    if !st.2.contains p && heurOK root h p then
      addMatches root h (st.1 ++ [p], st.2 ++ [p]) rest
    else addMatches root h st rest

/-- One tier loop of source `findElements`: run every selector of the
tier, threading the `(elements, seen)` state. -/
def runTier (root : Dom) (h : Option (Dom → Bool))
    (st : List (List Nat) × List (List Nat)) :
    List (List Sel) → List (List Nat) × List (List Nat)
  | [] => st
  | g :: gs => runTier root h (addMatches root h st (qsaPaths root g)) gs

/-- Source `findElements` (selectors.ts): primary pass; if it collected
nothing, continue with the fallback tier on the same state. -/
def findElements (root : Dom) (cfg : SelectorConfig) : List (List Nat) :=
  let st := runTier root cfg.heuristic ([], []) cfg.primary
  if st.1 = [] then (runTier root cfg.heuristic st cfg.fallback).1 else st.1

/-- Message roles (src/core/model/chat.ts). -/
inductive Role where
  | user
  | assistant
  | system
  | unknown
deriving DecidableEq, Repr

/-- The role as the string the source passes around. -/
def Role.toStr : Role → String
  | .user => "user"
  | .assistant => "assistant"
  | .system => "system"
  | .unknown => "unknown"

/-- Source `ROLE_INDICATORS.user` (selectors.ts). -/
def roleIndUser : List (List Sel) :=
  [[.attrEq "data-role" "user"],
   [.attrContains "class" "user"],
   [.attrContains "data-testid" "user"]]

/-- Source `ROLE_INDICATORS.assistant` (selectors.ts). -/
def roleIndAssistant : List (List Sel) :=
  [[.attrEq "data-role" "assistant"],
   [.attrContains "class" "assistant"],
   [.attrContains "class" "bot"],
   [.attrContains "data-testid" "assistant"]]

/-- Source `ROLE_INDICATORS.system` (selectors.ts). -/
def roleIndSystem : List (List Sel) :=
  [[.attrEq "data-role" "system"],
   [.attrContains "class" "system"]]

/-- The `checkSelectors` closure of source `detectRole`:
`element.matches(selector) || element.querySelector(selector) !== null`
over a selector list. -/
def checkSelectors (el : Dom) (sels : List (List Sel)) : Bool :=
  sels.any (fun g => g.any (selfMatch el) || (qsFirst el g).isSome)

/-- Source `detectRole` (selectors.ts). -/
def detectRole (el : Dom) : Role :=
  if checkSelectors el roleIndUser then .user
  else if checkSelectors el roleIndAssistant then .assistant
  else if checkSelectors el roleIndSystem then .system
  else
    let classNames := lowerStr (className el)
    let dataRole := (getAttr el "data-role").map lowerStr
    if dataRole = some "user" || strContains classNames "user" then .user
    else if dataRole = some "assistant" || strContains classNames "assistant" ||
        strContains classNames "bot" then .assistant
    else if dataRole = some "system" || strContains classNames "system" then
      .system
    else .unknown

/-- Source `MIN_CONTAINER_HEIGHT` (selectors.ts). -/
def MIN_CONTAINER_HEIGHT : Nat := 200

/-- DOM `Element.clientHeight`: 0 in a layout-free tree (the repository's
unit tests run against such a DOM, and the heuristic's comment documents
this case). -/
def clientHeight (_el : Dom) : Nat := 0

/-- DOM `Element.children.length`: number of element children. -/
def elementChildCount (el : Dom) : Nat :=
  ((childrenOf el).filter Dom.isElem).length

/-- Source `CONVERSATION_CONTAINER` heuristic (selectors.ts). -/
def containerHeuristic (el : Dom) : Bool :=
  let height := clientHeight el
  elementChildCount el > 0 &&
    (height > MIN_CONTAINER_HEIGHT || height = 0)

/-- Source `CONVERSATION_CONTAINER` (selectors.ts). -/
def CONVERSATION_CONTAINER : SelectorConfig where
  primary :=
    [[.comp (.tag "main") (.attrContains "class" "conversation")],
     [.attrEq "role" "main"],
     [.tag "main"],
     [.classWord "conversation-container"],
     [.attrEq "data-testid" "conversation"]]
  fallback :=
    [[.child (.child (.child (.child (.tag "body") (.tag "div")) (.tag "div"))
        (.tag "div")) (.tag "main")],
     [.child (.child (.tag "body") (.comp (.tag "div") (.hasAttr "id")))
        (.tag "main")],
     [.desc (.idIs "__next") (.tag "main")]]
  heuristic := some containerHeuristic

/-- Source `MESSAGE_BLOCKS` heuristic (selectors.ts): substantial text plus at
least one block-level content child. -/
def messageHeuristic (el : Dom) : Bool :=
  let text := jsTrim (textContent el)
  text.length > 5 &&
    (qsFirst el [.tag "p", .tag "pre", .tag "code", .tag "ul", .tag "ol"]).isSome

/-- Source `MESSAGE_BLOCKS` (selectors.ts). -/
def MESSAGE_BLOCKS : SelectorConfig where
  primary :=
    [[.hasAttr "data-message-id"],
     [.attrContains "data-testid" "conversation-turn"],
     [.attrContains "data-testid" "message"],
     [.attrContains "class" "message"],
     [.comp (.classWord "group") (.hasAttr "data-testid")]]
  fallback :=
    [[.child (.child (.child (.tag "main") (.tag "div")) (.tag "div"))
        (.tag "div")],
     [.desc (.tag "main") (.attrContains "class" "group")],
     [.tag "article"]]
  heuristic := some messageHeuristic

/-- Source `TITLE_SELECTORS` (selectors.ts). -/
def TITLE_SELECTORS : SelectorConfig where
  primary :=
    [[.tag "h1"],
     [.attrContains "class" "conversation-title"],
     [.attrContains "data-testid" "title"],
     [.desc (.tag "header") (.tag "h1")],
     [.desc (.tag "header") (.tag "h2")]]
  fallback :=
    [[.desc (.tag "main") (.tag "h1")],
     [.desc (.tag "nav") (.tag "h1")],
     [.tag "title"]]

/-- Source `generateSelectorHint` (selectors.ts), for the element at path
`p` in `root`. -/
def generateSelectorHint (root : Dom) (p : List Nat) : String :=
  let el := subD root p
  let tag := tagOf el
  let idStr := match getAttr el "id" with
    | some v => if v = "" then "" else "#" ++ v
    | none => ""
  let classes :=
    if className el = "" then ""
    else "." ++ joinSep "." (((className el).splitOn " ").take 2)
  let nth :=
    if p = [] then 1
    else
      let parent := subD root p.dropLast
      let idx := (p.getLast?).getD 0
      1 + (((childrenOf parent).take idx).filter
        (fun s => s.isElem && tagOf s = tag)).length
  tag ++ idStr ++ classes ++ ":nth-of-type(" ++ toString nth ++ ")"

/-! ## Content normalization (normalize.ts) -/

/-- The `uiSelectors` list of source `extractTextContent`. -/
def uiSelectors : List (List Sel) :=
  [[.tag "button"],
   [.attrEq "role" "button"],
   [.classWord "copy-button"],
   [.attrContains "class" "toolbar"],
   [.attrContains "class" "action"],
   [.attrContains "aria-label" "Copy"],
   [.attrContains "aria-label" "Regenerate"],
   [.attrContains "aria-label" "Edit"]]

/-- Does a node match one of the UI-noise selectors?  All of them are
combinator-free, so the match is context-free. -/
def isUIElem (d : Dom) : Bool :=
  d.isElem && uiSelectors.any (fun g => g.any (selfMatch d))

mutual

/-- The sequential `clone.querySelectorAll(sel).forEach(el => el.remove())`
loops of source `extractTextContent`: their net effect removes every
outermost node matching one of the UI selectors (nodes nested inside a
removed one are already detached when their turn comes). -/
def removeUI : Dom → Dom
  | .text s => .text s
  | .elem t a cs => .elem t a (removeUIList cs)

/-- Recursion of `removeUI` over a child list. -/
def removeUIList : List Dom → List Dom
  | [] => []
  | c :: cs =>
    (if isUIElem c then [] else [removeUI c]) ++ removeUIList cs

end

/-- Source `extractTextContent` (normalize.ts): clone, drop UI controls,
read `textContent`, normalize whitespace. -/
def extractTextContent (el : Dom) : String :=
  normalizeWhitespace (textContent (removeUI el))

/-- The leftmost match of `/(?:language|lang)-(\w+)/i` against a class
string: at each position the alternation tries `language-` first, then
`lang-`, then captures one or more word characters. -/
def langClassAux : List Char → Option String
  | [] => none
  | c :: rest =>
    let here :=
      (if startsWithCI "language-".data (c :: rest) then
        let run := ((c :: rest).drop 9).takeWhile isWordChar
        if run.isEmpty then none else some run
      else none)
      <|>
      (if startsWithCI "lang-".data (c :: rest) then
        let run := ((c :: rest).drop 5).takeWhile isWordChar
        if run.isEmpty then none else some run
      else none)
    match here with
    | some run => some (lowerStr (String.mk run))
    | none => langClassAux rest

/-- JS `className.match(/(?:language|lang)-(\w+)/i)` with the captured group
lowercased, as in source `extractCodeBlocks`. -/
def langClassMatch (cls : String) : Option String :=
  langClassAux cls.data

/-- The code-block selector group of source `extractCodeBlocks`:
`'pre code, pre, code[class*="language-"]'`. -/
def codeSelGroup : List Sel :=
  [.desc (.tag "pre") (.tag "code"),
   .tag "pre",
   .comp (.tag "code") (.attrContains "class" "language-")]

/-- The label selector group `'[class*="language"], [data-language]'`. -/
def langLabelGroup : List Sel :=
  [.attrContains "class" "language", .hasAttr "data-language"]

/-- Source `extractCodeBlocks` (normalize.ts). -/
def extractCodeBlocks (el : Dom) : List MessagePart :=
  (qsaPaths el codeSelGroup).filterMap (fun p =>
    let block := subD el p
    let code := jsTrim (textContent block)
    if code = "" then none
    else
      let lang : Option String :=
        match langClassMatch (className block) with
        | some l => some l
        | none =>
          match p with
          | [] => none
          | _ :: _ =>
            let parent := subD el p.dropLast
            match qsFirst parent langLabelGroup with
            | none => none
            | some lp =>
              let label := subD parent lp
              some (jsOrStr (getAttr label "data-language")
                (jsTrim (lowerStr (textContent label))))
      some (.code lang code))

/-- Source `extractLists` (normalize.ts): each list's direct `li`
children, keeping items with nonempty extracted text. -/
def extractLists (el : Dom) : List MessagePart :=
  (qsaPaths el [.tag "ol", .tag "ul"]).filterMap (fun p =>
    let list := subD el p
    let items := (qsaPaths list [.scopeChild (.tag "li")]).filterMap (fun q =>
      let t := extractTextContent (subD list q)
      if t = "" then none else some t)
    if items = [] then none
    else some (.list (tagOf list = "ol") items))

/-- Source `extractQuotes` (normalize.ts). -/
def extractQuotes (el : Dom) : List MessagePart :=
  (qsaPaths el [.tag "blockquote", .attrContains "class" "quote"]).filterMap
    (fun p =>
      let t := extractTextContent (subD el p)
      if t = "" then none else some (.quote t))

/-- Source `extractLinks` (normalize.ts).  Defined by the source but never
invoked by `extractContentParts`. -/
def extractLinks (el : Dom) : List MessagePart :=
  (qsaPaths el [.comp (.tag "a") (.hasAttr "href")]).filterMap (fun p =>
    let link := subD el p
    let href := (getAttr link "href").getD ""
    let t := extractTextContent link
    if href ≠ "" && t ≠ "" then some (.link t href) else none)

/-- The heading selector group `'h1, h2, h3, h4, h5, h6'`. -/
def headingSelGroup : List Sel :=
  [.tag "h1", .tag "h2", .tag "h3", .tag "h4", .tag "h5", .tag "h6"]

/-- JS `parseInt(heading.tagName[1], 10)`: the digit after the `h`. -/
def headingLevel (tag : String) : Nat :=
  match tag.data.get? 1 with
  | some c => c.toNat - 48
  | none => 0

/-- Source `extractHeadings` (normalize.ts). -/
def extractHeadings (el : Dom) : List MessagePart :=
  (qsaPaths el headingSelGroup).filterMap (fun p =>
    let heading := subD el p
    let t := extractTextContent heading
    if t = "" then none
    else some (.heading (headingLevel (tagOf heading)) t))

/-- Source `extractImages` (normalize.ts): every `img`, with nullable
`src`/`alt` taken verbatim. -/
def extractImages (el : Dom) : List MessagePart :=
  (qsaPaths el [.tag "img"]).map (fun p =>
    let img := subD el p
    .imageRef (getAttr img "alt") (getAttr img "src"))

/-- The structural-removal selector group of source `extractContentParts`:
`'pre, code[class*="language-"], ol, ul, blockquote, h1, h2, h3, h4, h5,
h6, img'` — all combinator-free. -/
def structuralGroup : List Sel :=
  [.tag "pre", .comp (.tag "code") (.attrContains "class" "language-"),
   .tag "ol", .tag "ul", .tag "blockquote",
   .tag "h1", .tag "h2", .tag "h3", .tag "h4", .tag "h5", .tag "h6",
   .tag "img"]

/-- Does a node match the structural-removal group? -/
def isStructuralElem (d : Dom) : Bool :=
  d.isElem && structuralGroup.any (selfMatch d)

/-- ASCII uppercase of a string (`Element.tagName` uppercases HTML tags). -/
def upperStr (s : String) : String :=
  String.mk (s.data.map Char.toUpper)

mutual

/-- The placeholder-substitution loop of source `extractContentParts`:
every outermost structural node is replaced by the text
`' [TAGNAME] '` (replacements inside an already-replaced node act on a
detached subtree and are invisible, because the `querySelectorAll`
snapshot is processed in document order). -/
def replaceStructural : Dom → Dom
  | .text s => .text s
  | .elem t a cs => .elem t a (replaceStructuralList cs)

/-- Recursion of `replaceStructural` over a child list. -/
def replaceStructuralList : List Dom → List Dom
  | [] => []
  | c :: cs =>
    (if isStructuralElem c then .text (" [" ++ upperStr (tagOf c) ++ "] ")
     else replaceStructural c) :: replaceStructuralList cs

end

/-- Source `extractContentParts` (normalize.ts). -/
def extractContentParts (el : Dom) : List MessagePart :=
  let codeBlocks := extractCodeBlocks el
  let lists := extractLists el
  let quotes := extractQuotes el
  let headings := extractHeadings el
  let images := extractImages el
  let remainingText := extractTextContent (replaceStructural el)
  let parts :=
    if codeBlocks ≠ [] ∨ lists ≠ [] ∨ quotes ≠ [] ∨ headings ≠ [] then
      headings ++ quotes ++ lists ++ codeBlocks ++ images ++
        (if remainingText.length > 10 then [.text remainingText] else [])
    else if remainingText ≠ "" then [.text remainingText]
    else []
  if parts = [] then
    let rawText := extractTextContent el
    if rawText ≠ "" then [.unknown rawText] else []
  else parts

/-! ## Parser orchestration (parseChatGpt.ts) -/

/-- Model `ChatMessage` (src/core/model/chat.ts): optional fields are `Option`;
`domRef` keeps just the `selectorHint` string. -/
structure ChatMessage where
  id : String
  index : Nat
  role : Role
  author : Option String := none
  createdAt : Option String := none
  domRef : Option String := none
  parts : List MessagePart
deriving DecidableEq, Repr

/-- Model `Source` metadata (src/core/model/chat.ts). -/
structure SourceMeta where
  url : String
  capturedAt : String
  platform : String
deriving DecidableEq, Repr

/-- Model `Chat` metadata (src/core/model/chat.ts). -/
structure ChatMeta where
  chatId : Option String := none
  title : Option String := none
deriving DecidableEq, Repr

/-- Model `ChatDocument` (src/core/model/chat.ts). -/
structure ChatDocument where
  schemaVersion : String
  source : SourceMeta
  chat : ChatMeta
  messages : List ChatMessage
deriving DecidableEq, Repr

/-- Model `ParserOptions` (src/core/model/chat.ts); `baseUrl` is reserved and
unused. -/
structure ParserOptions where
  debug : Bool := false
  baseUrl : Option String := none
deriving DecidableEq, Repr

/-- Model `ParserResult` (src/core/model/chat.ts). -/
structure ParserResult where
  document : ChatDocument
  warnings : List String
deriving DecidableEq, Repr

/-- A document input to the parser: ambient title, location URL, and the
markup tree rooted at the `html` element.  This models the
`doc: Document` case of `parseChatGpt` (the `Element` overload differs
only in sourcing `url` from `ownerDocument` and skipping the title). -/
structure JSDocument where
  title : String
  url : String
  root : Dom

/-- Source `extractChatId` (parseChatGpt.ts): the leftmost match of
`/\/c\/([a-zA-Z0-9-_]+)/`. -/
def isChatIdChar (c : Char) : Bool :=
  c.isAlpha || c.isDigit || c = '-' || c = '_'

/-- Scanner for `extractChatId`: at each position try to read `/c/`
followed by a nonempty id-character run, else advance one character
(the regex engine's leftmost-match scan). -/
def chatIdAux : List Char → Option String
  | [] => none
  | c :: rest =>
    let run := (rest.drop 2).takeWhile isChatIdChar
    if c = '/' && ['c', '/'].isPrefixOf rest && !run.isEmpty then
      some (String.mk run)
    else chatIdAux rest

/-- Source `extractChatId`. -/
def extractChatId (url : String) : Option String :=
  chatIdAux url.data

/-- Source `extractTitle` (parseChatGpt.ts): title-selector tier first;
on failure (or an unusable tier title) fall back to the ambient document
title unless it contains the product name `ChatGPT`. -/
def extractTitle (doc : JSDocument) : Option String :=
  let fallback : Option String :=
    if doc.title ≠ "" && !strContains doc.title "ChatGPT" then some doc.title
    else none
  match findElement doc.root TITLE_SELECTORS with
  | some tp =>
    let title := jsTrim (textContent (subD doc.root tp))
    if title ≠ "" && title.length < 200 then some title else fallback
  | none => fallback

/-- The `try` body of source `parseMessage`: classify the role, extract
parts, drop the block with a warning when no parts were extracted,
otherwise assemble the message (id, optional debug hint, optional
timestamp). -/
def parseMessageTry (root : Dom) (p : List Nat) (index : Nat)
    (options : ParserOptions) : Option ChatMessage × List String :=
  let el := subD root p
  let role := detectRole el
  let parts := extractContentParts el
  if parts = [] then
    (none, ["Message " ++ toString index ++ ": No content extracted"])
  else
    let id := generateMessageId role.toStr parts index
    let domRef := if options.debug then some (generateSelectorHint root p)
      else none
    let createdAt :=
      match qsFirst el [.comp (.tag "time") (.hasAttr "datetime")] with
      | some tp =>
        match getAttr (subD el tp) "datetime" with
        | some d => if d = "" then none else some d
        | none => none
      | none => none
    (some { id, index, role, parts, createdAt, domRef }, [])

/-- The `catch` boundary of source `parseMessage`: an exception thrown by
the body becomes a warning naming the block's position, and the block
contributes no message. -/
def parseMessageCaught (index : Nat)
    (body : Except String (Option ChatMessage × List String)) :
    Option ChatMessage × List String :=
  match body with
  | .ok r => r
  | .error e =>
    (none, ["Message " ++ toString index ++ ": Parse error - " ++ e])

/-- Source `parseMessage`.  In this embedding every DOM operation is
total, so the body never throws and the catch branch is vacuous — it is
exercised abstractly through `parseMessageCaught`. -/
def parseMessage (root : Dom) (p : List Nat) (index : Nat)
    (options : ParserOptions) : Option ChatMessage × List String :=
  parseMessageCaught index (.ok (parseMessageTry root p index options))

/-- The `messageElements.forEach((element, index) => ...)` loop of source
`parseChatGpt`, carrying the enumeration index: retained messages and
per-message warnings accumulate in block order. -/
def buildMessages (container : Dom) (options : ParserOptions) (index : Nat) :
    List (List Nat) → List ChatMessage × List String
  | [] => ([], [])
  | p :: ps =>
    let (m, w) := parseMessage container p index options
    let (ms, ws) := buildMessages container options (index + 1) ps
    ((match m with | some msg => [msg] | none => []) ++ ms, w ++ ws)

/-- Source `parseChatGpt` (parseChatGpt.ts), for a `Document` input.  The
impure clock read `new Date().toISOString()` is an explicit `now`
parameter; the thrown `Error('Conversation container not found')` is the
`Except.error` case. -/
def parseChatGpt (doc : JSDocument) (options : ParserOptions) (now : String) :
    Except String ParserResult :=
  match findElement doc.root CONVERSATION_CONTAINER with
  | none => .error "Conversation container not found"
  | some cp =>
    let container := subD doc.root cp
    let blockPaths := findElements container MESSAGE_BLOCKS
    let w0 := if blockPaths = [] then ["No message blocks found"] else []
    let (messages, ws) := buildMessages container options 0 blockPaths
    let chatId := extractChatId doc.url
    let title := extractTitle doc
    .ok
      { document :=
          { schemaVersion := "1.0"
            source := { url := doc.url, capturedAt := now, platform := "chatgpt" }
            chat := { chatId, title }
            messages }
        warnings := w0 ++ ws }

/-! ## Claims -/

/-- A base-36 digit for a value below 36 is a decimal digit or a
lowercase letter. -/
theorem b36digit_charset (n : Nat) (h : n < 36) :
    (b36digit n).isDigit = true ∨ (b36digit n).isLower = true := by
  interval_cases n <;> simp [b36digit]

/-- Every character `b36Go` emits is a digit or lowercase letter,
provided the accumulator already satisfies that. -/
theorem b36Go_charset (fuel : Nat) :
    ∀ n : Nat, ∀ acc : List Char,
      (∀ c ∈ acc, c.isDigit = true ∨ c.isLower = true) →
      ∀ c ∈ b36Go fuel n acc, c.isDigit = true ∨ c.isLower = true := by
  induction fuel with
  | zero =>
    intro n acc hacc c hc
    exact hacc c hc
  | succ fuel ih =>
    intro n acc hacc c hc
    rw [b36Go] at hc
    split at hc
    · rw [List.mem_cons] at hc
      rcases hc with hc | hc
      · subst hc
        exact b36digit_charset n (by omega)
      · exact hacc c hc
    · refine ih (n / 36) _ ?_ c hc
      intro d hd
      rw [List.mem_cons] at hd
      rcases hd with hd | hd
      · subst hd
        exact b36digit_charset _ (Nat.mod_lt _ (by omega))
      · exact hacc d hd

/-- Base-36 renderings are lowercase: every character is a decimal digit
or a lowercase letter. -/
theorem toBase36_lowercase (n : Nat) :
    ∀ c ∈ (toBase36 n).data, c.isDigit = true ∨ c.isLower = true := by
  intro c hc
  exact b36Go_charset (n + 1) n [] (by intro d hd; cases hd) c hc

/-- C1: `generateMessageId` canonicalizes the parts into tagged fragments
joined by newlines (`normalizePartsText`), applies UI-noise stripping
(`stripUIText`), builds the hash input `"<role>:<cleaned>:<index>"`,
hashes it with a 32-bit accumulator seeded at 5381 updated per character
as `acc = (acc*33) XOR charCode(c)` (each step and the finalization taken
modulo `2^32`, the unsigned reading of the JS `Int32`/`>>> 0`
arithmetic), renders the hash in lowercase base-36 (second conjunct:
every character of the hash is a decimal digit or lowercase letter), and
returns `"msg_" + hash + "_" + index`.  The id is a pure function of
`(role, parts, index)`, so identical inputs always yield the identical
id. -/
theorem c1_generateMessageId_pipeline (role : String) (parts : List MessagePart)
    (index : Nat) :
    generateMessageId role parts index =
      "msg_" ++
        toBase36
          (((role ++ ":" ++ stripUIText (normalizePartsText parts) ++ ":" ++
              toString index).data.foldl
            (fun acc c => Nat.xor (acc * 33 % 2 ^ 32) c.toNat % 2 ^ 32)
            5381) % 2 ^ 32) ++
        "_" ++ toString index
    ∧ ∀ c ∈ (hashString (role ++ ":" ++ stripUIText (normalizePartsText parts)
          ++ ":" ++ toString index)).data,
        c.isDigit = true ∨ c.isLower = true := by
  constructor
  · rfl
  · intro c hc
    exact toBase36_lowercase _ c hc

/-- C2 (counterexample): the claim fails on the code.  Appending the UI
token `Copy` to a text part changes the id: stripping removes only the
token itself, so the space that preceded it survives into the hash
input, and the ids differ. -/
theorem c2_ui_edit_changes_id :
    generateMessageId "user" [MessagePart.text "Hello"] 0 ≠
      generateMessageId "user" [MessagePart.text "Hello Copy"] 0 ∧
    stripUIText (normalizePartsText [MessagePart.text "Hello Copy"]) =
      "Hello " := by
  constructor
  · decide
  · decide

/-- C2 (amended): the id depends on the parts only through the cleaned
canonical text `stripUIText (normalizePartsText parts)`.  Whitespace
edits that whitespace normalization collapses (extra spaces/tabs) leave
the id unchanged, and more generally so does any edit with the same
cleaned canonical text; but a UI-noise-token edit may change the id,
because stripping removes just the token and leaves the whitespace
around it (see the counterexample). -/
theorem c2_id_depends_on_cleaned_text (role : String) (index : Nat)
    (p1 p2 : List MessagePart)
    (h : stripUIText (normalizePartsText p1) =
      stripUIText (normalizePartsText p2)) :
    generateMessageId role p1 index = generateMessageId role p2 index := by
  simp only [generateMessageId, h]

/-- C2 (witness): a pure extra-spaces edit leaves the id unchanged. -/
theorem c2_id_depends_on_cleaned_text_witness :
    generateMessageId "user" [MessagePart.text "Hello   world"] 0 =
      generateMessageId "user" [MessagePart.text "Hello world"] 0 :=
  c2_id_depends_on_cleaned_text "user" 0 [MessagePart.text "Hello   world"]
    [MessagePart.text "Hello world"] (by decide)

/-- C8: the token patterns do strip the interactive-affordance words
case-insensitively, and a whole-string counter is removed; but the
counter pattern is anchored to the entire string (`^...$` without the
multiline flag), so a counter inside surrounding text survives — the
repository's own unit test (tests/unit/stableIds.test.ts, `should remove
message counters`) expects `stripUIText('Message 1 / 20 content')` not
to contain `1 / 20`, and the code violates it. -/
theorem c8_counter_only_whole_string :
    stripUIText "Message 1 / 20 content" = "Message 1 / 20 content" ∧
    strContains (stripUIText "Message 1 / 20 content") "1 / 20" = true ∧
    stripUIText " 1 / 20 " = "" ∧
    stripUIText "Some text Copy code" = "Some text  code" ∧
    stripUIText "Response Regenerate" = "Response " ∧
    stripUIText "a COPY b copied REGENERATE Edit thumbs up SHARE continue c" =
      "a  b       c" := by
  refine ⟨by decide, by decide, by decide, by decide, by decide, by decide⟩

/-- Document used for the C9 counterexample: no element matches the
title-selector tier, and the ambient title contains — but does not equal —
the product name. -/
def c9doc : JSDocument where
  title := "Weather talk - ChatGPT"
  url := ""
  root := .elem "html" [] [.elem "body" [] [.elem "div" [] [.text "hi"]]]

/-- C9 (counterexample): the claim fails on the code.  The title-selector
tier yields nothing, the ambient document title contains the product name
`ChatGPT` among other words without being equal to it — the claim says it
is still used, but `extractTitle` rejects any fallback title *containing*
`ChatGPT` and returns no title. -/
theorem c9_containing_title_rejected :
    findElement c9doc.root TITLE_SELECTORS = none ∧
    c9doc.title ≠ "ChatGPT" ∧
    c9doc.title ≠ "" ∧
    strContains c9doc.title "ChatGPT" = true ∧
    extractTitle c9doc = none := by
  refine ⟨by decide, by decide, by decide, by decide, by decide⟩

/-- C9 (amended): when no title-selector element resolves, the fallback
ambient title is used exactly when it is nonempty and does not *contain*
the product name `ChatGPT` as a substring (not merely when it equals
it). -/
theorem c9_fallback_rejects_containing (doc : JSDocument)
    (h : findElement doc.root TITLE_SELECTORS = none) :
    extractTitle doc =
      if doc.title ≠ "" ∧ strContains doc.title "ChatGPT" = false then
        some doc.title
      else none := by
  unfold extractTitle
  rw [h]
  by_cases h1 : doc.title = "" <;>
    by_cases h2 : strContains doc.title "ChatGPT" = true <;>
      simp [h1, h2]

/-- C9 (witness): a plain ambient title is used as the document title. -/
def c9docB : JSDocument where
  title := "My Conversation"
  url := ""
  root := .elem "html" [] [.elem "body" [] [.elem "div" [] [.text "hi"]]]

/-- C9 witness: the amended statement at a concrete document. -/
theorem c9_fallback_rejects_containing_witness :
    extractTitle c9docB = some "My Conversation" :=
  (c9_fallback_rejects_containing c9docB (by decide)).trans (by decide)

/-- Element used for the C4 counterexample: phase-1 indicator selectors
are all case-sensitive and miss the uppercase attribute values, so the
fallback is reached with an explicit role attribute saying `assistant`
and a class-name string containing `user`. -/
def c4elem : Dom :=
  .elem "div" [("data-role", "ASSISTANT"), ("class", "USER")] []

/-- C4 (counterexample): the claim fails on the code.  In the fallback,
the element's explicit role attribute (lowercased: `assistant`) should
take precedence, but `detectRole` tests the `user` branch first and that
branch accepts on the class-name substring alone, returning `user`. -/
theorem c4_class_overrides_attribute :
    checkSelectors c4elem roleIndUser = false ∧
    checkSelectors c4elem roleIndAssistant = false ∧
    checkSelectors c4elem roleIndSystem = false ∧
    (getAttr c4elem "data-role").map lowerStr = some "assistant" ∧
    strContains (lowerStr (className c4elem)) "user" = true ∧
    detectRole c4elem = .user := by
  refine ⟨by decide, by decide, by decide, by decide, by decide, by decide⟩

/-- C4 (amended): when no indicator-selector set matches (checked in the
fixed priority order user, assistant, system, over the element and its
descendants), the fallback checks the roles in the same order, and
within each role the lowercased explicit role attribute and the
class-name substring are *alternatives* — so a class substring of an
earlier-priority role overrides a differing explicit attribute of a
later-priority role; if neither signal fires for any role, the result is
`unknown`. -/
theorem c4_fallback_order (el : Dom)
    (hu : checkSelectors el roleIndUser = false)
    (ha : checkSelectors el roleIndAssistant = false)
    (hs : checkSelectors el roleIndSystem = false) :
    detectRole el =
      (let classNames := lowerStr (className el)
       let dataRole := (getAttr el "data-role").map lowerStr
       if dataRole = some "user" || strContains classNames "user" then
         Role.user
       else if dataRole = some "assistant" ||
           strContains classNames "assistant" ||
           strContains classNames "bot" then Role.assistant
       else if dataRole = some "system" || strContains classNames "system" then
         Role.system
       else Role.unknown) := by
  unfold detectRole
  rw [hu, ha, hs]
  simp

/-- C4 witness: the amended statement at a concrete element whose
uppercase `data-role` escapes the phase-1 selectors but classifies as
`system` in the fallback. -/
theorem c4_fallback_order_witness :
    detectRole (Dom.elem "div" [("data-role", "SYSTEM")] []) = Role.system :=
  (c4_fallback_order (Dom.elem "div" [("data-role", "SYSTEM")] [])
    (by decide) (by decide) (by decide)).trans (by decide)

/-- The assembly rule of `extractContentParts`, as a reusable equation. -/
theorem extractContentParts_eq (el : Dom) :
    extractContentParts el =
      (let remainingText := extractTextContent (replaceStructural el)
       if extractHeadings el ≠ [] ∨ extractQuotes el ≠ [] ∨
           extractLists el ≠ [] ∨ extractCodeBlocks el ≠ [] then
         extractHeadings el ++ extractQuotes el ++ extractLists el ++
           extractCodeBlocks el ++ extractImages el ++
           (if remainingText.length > 10 then [MessagePart.text remainingText]
            else [])
       else if remainingText ≠ "" then [MessagePart.text remainingText]
       else if extractTextContent el ≠ "" then
         [MessagePart.unknown (extractTextContent el)]
       else []) := by
  unfold extractContentParts
  by_cases h1 : extractCodeBlocks el = [] <;>
    by_cases h2 : extractLists el = [] <;>
      by_cases h3 : extractQuotes el = [] <;>
        by_cases h4 : extractHeadings el = [] <;>
          simp only [h1, h2, h3, h4, ne_eq, not_true_eq_false, not_false_eq_true,
            false_or, or_false, true_or, or_true, if_true, if_false,
            List.append_eq_nil, List.nil_append, List.append_nil] <;>
          (split <;> simp_all [List.append_eq_nil])

/-- C3: the assembly rule of `extractContentParts`.  If any heading,
quote, list, or code part was found (images do not gate this branch), the
result is headings, then quotes, then lists, then code, then images,
followed by a trailing text part exactly when the remaining text's length
exceeds 10; with no structural part, a single text part when the
remaining text is nonempty; with nothing assembled at all, a single
`unknown` part carrying the text content of the original element (read
without the structural-placeholder pass) when that is nonempty, and
otherwise the empty sequence. -/
theorem c3_assembly (el : Dom) :
    extractContentParts el =
      (let remainingText := extractTextContent (replaceStructural el)
       if extractHeadings el ≠ [] ∨ extractQuotes el ≠ [] ∨
           extractLists el ≠ [] ∨ extractCodeBlocks el ≠ [] then
         extractHeadings el ++ extractQuotes el ++ extractLists el ++
           extractCodeBlocks el ++ extractImages el ++
           (if remainingText.length > 10 then [MessagePart.text remainingText]
            else [])
       else if remainingText ≠ "" then [MessagePart.text remainingText]
       else if extractTextContent el ≠ "" then
         [MessagePart.unknown (extractTextContent el)]
       else []) :=
  extractContentParts_eq el

/-- Lemma: `addMatches` keeps the `seen` set equal to the collected element
list (the source appends to both in lockstep). -/
theorem addMatches_seen_eq (root : Dom) (h : Option (Dom → Bool))
    (l : List (List Nat)) :
    ∀ st : List (List Nat) × List (List Nat), st.2 = st.1 →
      (addMatches root h st l).2 = (addMatches root h st l).1 := by
  induction l with
  | nil => intro st hst; simpa [addMatches] using hst
  | cons p rest ih =>
    intro st hst
    rw [addMatches]
    split
    · exact ih _ (by simp [hst])
    · exact ih _ hst

/-- Lemma: `runTier` keeps the `seen` set equal to the collected element list. -/
theorem runTier_seen_eq (root : Dom) (h : Option (Dom → Bool))
    (tier : List (List Sel)) :
    ∀ st : List (List Nat) × List (List Nat), st.2 = st.1 →
      (runTier root h st tier).2 = (runTier root h st tier).1 := by
  induction tier with
  | nil => intro st hst; simpa [runTier] using hst
  | cons g gs ih =>
    intro st hst
    rw [runTier]
    exact ih _ (addMatches_seen_eq root h _ st hst)

/-- Lemma: `addMatches` preserves distinctness of the collected elements. -/
theorem addMatches_nodup (root : Dom) (h : Option (Dom → Bool))
    (l : List (List Nat)) :
    ∀ st : List (List Nat) × List (List Nat), st.2 = st.1 → st.1.Nodup →
      (addMatches root h st l).1.Nodup := by
  induction l with
  | nil => intro st _ hnd; simpa [addMatches] using hnd
  | cons p rest ih =>
    intro st hst hnd
    rw [addMatches]
    split
    · rename_i hcond
      refine ih _ (by simp [hst]) ?_
      rw [Bool.and_eq_true, Bool.not_eq_true'] at hcond
      have hpmem : p ∉ st.1 := by
        intro hmem
        have hcont : st.2.contains p = true := by
          rw [hst]
          exact List.elem_iff.mpr hmem
        rw [hcond.1] at hcont
        cases hcont
      simp [List.nodup_append, hnd, hpmem, List.disjoint_singleton]
    · exact ih _ hst hnd

/-- Every element `addMatches` collects either was already collected or
comes from the processed match list and passes the heuristic. -/
theorem addMatches_sound (root : Dom) (h : Option (Dom → Bool))
    (l : List (List Nat)) :
    ∀ st : List (List Nat) × List (List Nat),
      ∀ p ∈ (addMatches root h st l).1,
        p ∈ st.1 ∨ (p ∈ l ∧ heurOK root h p = true) := by
  induction l with
  | nil => intro st p hp; exact Or.inl (by simpa [addMatches] using hp)
  | cons q rest ih =>
    intro st p hp
    rw [addMatches] at hp
    split at hp
    · rename_i hcond
      rcases ih _ p hp with hin | ⟨hin, hh⟩
      · rw [List.mem_append] at hin
        rcases hin with hin | hin
        · exact Or.inl hin
        · simp only [List.mem_singleton] at hin
          subst hin
          refine Or.inr ⟨List.mem_cons_self _ _, ?_⟩
          simp only [Bool.and_eq_true] at hcond
          exact hcond.2
      · exact Or.inr ⟨List.mem_cons_of_mem _ hin, hh⟩
    · rcases ih _ p hp with hin | ⟨hin, hh⟩
      · exact Or.inl hin
      · exact Or.inr ⟨List.mem_cons_of_mem _ hin, hh⟩

/-- Every element `runTier` collects either was already collected or
matches one of the tier's selectors and passes the heuristic. -/
theorem runTier_sound (root : Dom) (h : Option (Dom → Bool))
    (tier : List (List Sel)) :
    ∀ st : List (List Nat) × List (List Nat),
      ∀ p ∈ (runTier root h st tier).1,
        p ∈ st.1 ∨
          ∃ g ∈ tier, p ∈ qsaPaths root g ∧ heurOK root h p = true := by
  induction tier with
  | nil => intro st p hp; exact Or.inl (by simpa [runTier] using hp)
  | cons g gs ih =>
    intro st p hp
    rw [runTier] at hp
    rcases ih _ p hp with hin | ⟨g', hg', hq, hh⟩
    · rcases addMatches_sound root h _ st p hin with hin' | ⟨hq, hh⟩
      · exact Or.inl hin'
      · exact Or.inr ⟨g, List.mem_cons_self _ _, hq, hh⟩
    · exact Or.inr ⟨g', List.mem_cons_of_mem _ hg', hq, hh⟩

/-- Lemma: `runTier` preserves distinctness of the collected elements. -/
theorem runTier_nodup (root : Dom) (h : Option (Dom → Bool))
    (tier : List (List Sel)) :
    ∀ st : List (List Nat) × List (List Nat), st.2 = st.1 → st.1.Nodup →
      (runTier root h st tier).1.Nodup := by
  induction tier with
  | nil => intro st _ hnd; simpa [runTier] using hnd
  | cons g gs ih =>
    intro st hst hnd
    rw [runTier]
    exact ih _ (addMatches_seen_eq root h _ st hst)
      (addMatches_nodup root h _ st hst hnd)

/-- C7: `findElements` evaluates every primary selector, collecting
matches in encounter order, filtering each through the heuristic and
deduplicating by node identity (paths), so the result has no duplicates;
the fallback tier is used, with the identical fresh-start procedure,
exactly when the primary pass yielded zero elements (the tiers are never
merged); and every returned element passes the heuristic and matched
some selector of the engaged tier.  The result may be empty. -/
theorem c7_findElements_tiers (root : Dom) (cfg : SelectorConfig) :
    (findElements root cfg =
       if (runTier root cfg.heuristic ([], []) cfg.primary).1 = [] then
         (runTier root cfg.heuristic ([], []) cfg.fallback).1
       else (runTier root cfg.heuristic ([], []) cfg.primary).1) ∧
    (findElements root cfg).Nodup ∧
    (∀ p ∈ findElements root cfg,
       heurOK root cfg.heuristic p = true ∧
         ∃ g, (g ∈ cfg.primary ∨ g ∈ cfg.fallback) ∧ p ∈ qsaPaths root g) := by
  have hseen : (runTier root cfg.heuristic ([], []) cfg.primary).2 =
      (runTier root cfg.heuristic ([], []) cfg.primary).1 :=
    runTier_seen_eq root cfg.heuristic cfg.primary ([], []) rfl
  have hsplit : findElements root cfg =
      if (runTier root cfg.heuristic ([], []) cfg.primary).1 = [] then
        (runTier root cfg.heuristic ([], []) cfg.fallback).1
      else (runTier root cfg.heuristic ([], []) cfg.primary).1 := by
    unfold findElements
    split
    · rename_i hempty
      have hpair : runTier root cfg.heuristic ([], []) cfg.primary = ([], []) := by
        have h2 : (runTier root cfg.heuristic ([], []) cfg.primary).2 = [] := by
          rw [hseen, hempty]
        exact Prod.ext hempty h2
      rw [hpair, if_pos rfl]
    · rename_i hne
      rw [if_neg hne]
  refine ⟨hsplit, ?_, ?_⟩
  · rw [hsplit]
    split
    · exact runTier_nodup root cfg.heuristic cfg.fallback ([], []) rfl List.nodup_nil
    · exact runTier_nodup root cfg.heuristic cfg.primary ([], []) rfl List.nodup_nil
  · intro p hp
    rw [hsplit] at hp
    split at hp
    · rcases runTier_sound root cfg.heuristic cfg.fallback ([], []) p hp with hin | ⟨g, hg, hq, hh⟩
      · cases hin
      · exact ⟨hh, g, Or.inr hg, hq⟩
    · rcases runTier_sound root cfg.heuristic cfg.primary ([], []) p hp with hin | ⟨g, hg, hq, hh⟩
      · cases hin
      · exact ⟨hh, g, Or.inl hg, hq⟩

/-- A retained message records the enumeration index it was built with,
its parts are exactly the extracted content parts, and they are
nonempty (the empty-parts branch yields no message). -/
theorem parseMessage_some (root : Dom) (p : List Nat) (index : Nat)
    (options : ParserOptions) (m : ChatMessage)
    (h : (parseMessage root p index options).1 = some m) :
    m.index = index ∧ m.parts = extractContentParts (subD root p) ∧
      m.parts ≠ [] := by
  simp only [parseMessage, parseMessageCaught, parseMessageTry] at h
  split at h
  · cases h
  · rename_i hne
    simp only [Option.some.injEq] at h
    subst h
    exact ⟨rfl, rfl, hne⟩

/-- Every message `buildMessages` produces comes from the block at the
offset recorded in its index, and indices grow from the starting
offset. -/
theorem buildMessages_mem (container : Dom) (options : ParserOptions) :
    ∀ (ps : List (List Nat)) (index : Nat) (m : ChatMessage),
      m ∈ (buildMessages container options index ps).1 →
        index ≤ m.index ∧
        ∃ p, ps.get? (m.index - index) = some p ∧
          (parseMessage container p m.index options).1 = some m := by
  intro ps
  induction ps with
  | nil => intro index m hm; cases hm
  | cons p rest ih =>
    intro index m hm
    rw [buildMessages] at hm
    simp only [List.mem_append] at hm
    rcases hm with hm | hm
    · rcases hres : (parseMessage container p index options).1 with _ | msg
      · rw [hres] at hm
        cases hm
      · rw [hres] at hm
        simp only [List.mem_singleton] at hm
        subst hm
        have hidx := (parseMessage_some container p index options _ hres).1
        refine ⟨le_of_eq hidx.symm, p, ?_, ?_⟩
        · rw [hidx, Nat.sub_self]
          rfl
        · rw [hidx]
          exact hres
    · rcases ih (index + 1) m hm with ⟨hle, q, hq, hp⟩
      refine ⟨by omega, q, ?_, hp⟩
      have : m.index - index = (m.index - (index + 1)) + 1 := by omega
      rw [this]
      simpa using hq

/-- The messages `buildMessages` produces are strictly increasing in
`index`, and all indices are at least the starting offset. -/
theorem buildMessages_sorted (container : Dom) (options : ParserOptions) :
    ∀ (ps : List (List Nat)) (index : Nat),
      (buildMessages container options index ps).1.Chain'
          (fun a b => a.index < b.index) ∧
        ∀ m ∈ (buildMessages container options index ps).1, index ≤ m.index := by
  intro ps
  induction ps with
  | nil =>
    intro index
    constructor
    · rw [buildMessages]
      exact List.chain'_nil
    · intro m hm
      cases hm
  | cons p rest ih =>
    intro index
    have hrest := ih (index + 1)
    constructor
    · rw [buildMessages]
      simp only
      rcases hres : (parseMessage container p index options).1 with _ | msg
      · simpa using hrest.1
      · simp only [List.singleton_append]
        rw [List.chain'_cons']
        refine ⟨?_, hrest.1⟩
        intro y hy
        have hymem : y ∈ (buildMessages container options (index + 1) rest).1 :=
          List.mem_of_mem_head? hy
        have hidx := (parseMessage_some container p index options _ hres).1
        have := hrest.2 y hymem
        omega
    · intro m hm
      rw [buildMessages] at hm
      simp only [List.mem_append] at hm
      rcases hm with hm | hm
      · rcases hres : (parseMessage container p index options).1 with _ | msg
        · rw [hres] at hm
          cases hm
        · rw [hres] at hm
          simp only [List.mem_singleton] at hm
          subst hm
          exact le_of_eq (parseMessage_some container p index options _ hres).1.symm
      · have := hrest.2 m hm
        omega

/-- The messages of a successful parse are exactly the build over the
enumerated blocks of the resolved container. -/
theorem parseChatGpt_ok (doc : JSDocument) (options : ParserOptions)
    (now : String) (res : ParserResult)
    (h : parseChatGpt doc options now = .ok res) :
    ∃ cp, findElement doc.root CONVERSATION_CONTAINER = some cp ∧
      res.document.messages =
        (buildMessages (subD doc.root cp) options 0
          (findElements (subD doc.root cp) MESSAGE_BLOCKS)).1 := by
  unfold parseChatGpt at h
  rcases hfind : findElement doc.root CONVERSATION_CONTAINER with _ | cp
  · rw [hfind] at h
    cases h
  · rw [hfind] at h
    simp only at h
    cases h
    exact ⟨cp, rfl, rfl⟩

/-- C6: in every document `parse` returns, every retained message has a
nonempty parts sequence; each message's `index` equals its block's
position in the original pre-filter enumeration produced by
`findElements` (so drops can leave gaps); and the message sequence is
sorted by strictly ascending `index`. -/
theorem c6_parse_invariants (doc : JSDocument) (options : ParserOptions)
    (now : String) (res : ParserResult)
    (h : parseChatGpt doc options now = .ok res) :
    (∀ m ∈ res.document.messages, m.parts ≠ []) ∧
    res.document.messages.Pairwise (fun a b => a.index < b.index) ∧
    (∀ m ∈ res.document.messages,
      ∃ cp p, findElement doc.root CONVERSATION_CONTAINER = some cp ∧
        (findElements (subD doc.root cp) MESSAGE_BLOCKS).get? m.index =
          some p ∧
        (parseMessage (subD doc.root cp) p m.index options).1 = some m) := by
  rcases parseChatGpt_ok doc options now res h with ⟨cp, hcp, hmsgs⟩
  refine ⟨?_, ?_, ?_⟩
  · intro m hm
    rw [hmsgs] at hm
    rcases buildMessages_mem _ options _ 0 m hm with ⟨_, p, _, hp⟩
    exact (parseMessage_some _ p m.index options m hp).2.2
  · have htrans : IsTrans ChatMessage (fun a b => a.index < b.index) :=
      ⟨fun _ _ _ h1 h2 => lt_trans h1 h2⟩
    rw [hmsgs]
    rw [← List.chain'_iff_pairwise]
    exact (buildMessages_sorted _ options _ 0).1
  · intro m hm
    rw [hmsgs] at hm
    rcases buildMessages_mem _ options _ 0 m hm with ⟨_, p, hget, hp⟩
    rw [Nat.sub_zero] at hget
    exact ⟨cp, p, hcp, hget, hp⟩

/-- C5: the error taxonomy of `parse`.  (1) When no container element is
accepted, it signals `ContainerNotFound` (the thrown error) and produces
no document.  (2) The per-message boundary converts an exception from a
block's parse into a warning identifying that block's position, and the
block contributes no message — extraction of the remaining blocks
continues because each block is folded independently (`buildMessages`).
(3) When zero message blocks are found, a warning is recorded and a
document with an empty message sequence is returned. -/
theorem c5_error_taxonomy :
    (∀ (doc : JSDocument) (options : ParserOptions) (now : String),
       findElement doc.root CONVERSATION_CONTAINER = none →
       parseChatGpt doc options now =
         .error "Conversation container not found") ∧
    (∀ (index : Nat) (e : String),
       parseMessageCaught index (.error e) =
         (none, ["Message " ++ toString index ++ ": Parse error - " ++ e])) ∧
    (∀ (doc : JSDocument) (options : ParserOptions) (now : String)
       (cp : List Nat),
       findElement doc.root CONVERSATION_CONTAINER = some cp →
       findElements (subD doc.root cp) MESSAGE_BLOCKS = [] →
       parseChatGpt doc options now = .ok
         { document :=
             { schemaVersion := "1.0"
               source :=
                 { url := doc.url, capturedAt := now, platform := "chatgpt" }
               chat :=
                 { chatId := extractChatId doc.url, title := extractTitle doc }
               messages := [] }
           warnings := ["No message blocks found"] }) := by
  refine ⟨?_, ?_, ?_⟩
  · intro doc options now hnone
    unfold parseChatGpt
    rw [hnone]
  · intro index e
    rfl
  · intro doc options now cp hsome hempty
    unfold parseChatGpt
    rw [hsome]
    simp only [hempty, buildMessages]
    rfl

/-- Is a part the `link` variant? -/
def isLinkPart : MessagePart → Bool
  | .link _ _ => true
  | _ => false

/-- Code-block extraction yields only `code` parts. -/
theorem extractCodeBlocks_no_link (el : Dom) :
    ∀ p ∈ extractCodeBlocks el, isLinkPart p = false := by
  intro p hp
  rw [extractCodeBlocks, List.mem_filterMap] at hp
  rcases hp with ⟨q, _, hq⟩
  simp only at hq
  split at hq
  · cases hq
  · cases hq
    rfl

/-- List extraction yields only `list` parts. -/
theorem extractLists_no_link (el : Dom) :
    ∀ p ∈ extractLists el, isLinkPart p = false := by
  intro p hp
  rw [extractLists, List.mem_filterMap] at hp
  rcases hp with ⟨q, _, hq⟩
  simp only at hq
  split at hq
  · cases hq
  · cases hq
    rfl

/-- Quote extraction yields only `quote` parts. -/
theorem extractQuotes_no_link (el : Dom) :
    ∀ p ∈ extractQuotes el, isLinkPart p = false := by
  intro p hp
  rw [extractQuotes, List.mem_filterMap] at hp
  rcases hp with ⟨q, _, hq⟩
  simp only at hq
  split at hq
  · cases hq
  · cases hq
    rfl

/-- Heading extraction yields only `heading` parts. -/
theorem extractHeadings_no_link (el : Dom) :
    ∀ p ∈ extractHeadings el, isLinkPart p = false := by
  intro p hp
  rw [extractHeadings, List.mem_filterMap] at hp
  rcases hp with ⟨q, _, hq⟩
  simp only at hq
  split at hq
  · cases hq
  · cases hq
    rfl

/-- Image extraction yields only `imageRef` parts. -/
theorem extractImages_no_link (el : Dom) :
    ∀ p ∈ extractImages el, isLinkPart p = false := by
  intro p hp
  rw [extractImages, List.mem_map] at hp
  rcases hp with ⟨q, _, hq⟩
  cases hq
  rfl

/-- C10: content decomposition never emits a `link` part — the data model
defines the variant and `extractLinks` exists, but `extractContentParts`
never invokes it — and consequently no message produced by `parse`
carries a `link` part. -/
theorem c10_no_link_parts :
    (∀ (el : Dom), ∀ p ∈ extractContentParts el, isLinkPart p = false) ∧
    (∀ (doc : JSDocument) (options : ParserOptions) (now : String)
       (res : ParserResult), parseChatGpt doc options now = .ok res →
       ∀ m ∈ res.document.messages, ∀ p ∈ m.parts, isLinkPart p = false) := by
  have hparts : ∀ (el : Dom), ∀ p ∈ extractContentParts el,
      isLinkPart p = false := by
    intro el p hp
    rw [extractContentParts_eq el] at hp
    simp only at hp
    split at hp
    · simp only [List.mem_append] at hp
      rcases hp with ((((hp | hp) | hp) | hp) | hp) | hp
      · exact extractHeadings_no_link el p hp
      · exact extractQuotes_no_link el p hp
      · exact extractLists_no_link el p hp
      · exact extractCodeBlocks_no_link el p hp
      · exact extractImages_no_link el p hp
      · split at hp
        · rw [List.mem_singleton] at hp
          subst hp
          rfl
        · cases hp
    · split at hp
      · rw [List.mem_singleton] at hp
        subst hp
        rfl
      · split at hp
        · rw [List.mem_singleton] at hp
          subst hp
          rfl
        · cases hp
  refine ⟨hparts, ?_⟩
  intro doc options now res h m hm p hp
  rcases parseChatGpt_ok doc options now res h with ⟨cp, _, hmsgs⟩
  rw [hmsgs] at hm
  rcases buildMessages_mem _ options _ 0 m hm with ⟨_, q, _, hq⟩
  have := (parseMessage_some _ q m.index options m hq).2.1
  rw [this] at hp
  exact hparts _ p hp

/-- A tree with no acceptable conversation container. -/
def c5docNoContainer : JSDocument where
  title := ""
  url := ""
  root := .elem "html" [] [.elem "body" []
    [.elem "div" [] [.text "No main element"]]]

/-- A tree with an accepted container but no message blocks. -/
def c5docEmpty : JSDocument where
  title := ""
  url := "u"
  root := .elem "html" [] [.elem "body" [] [.elem "main" []
    [.elem "div" [] []]]]

/-- C5 witness: the taxonomy at concrete inputs — a container-less tree
signals the fatal error, a thrown per-message error becomes a positioned
warning with the block dropped, and an empty container yields an
empty-message document with a warning. -/
theorem c5_error_taxonomy_witness :
    parseChatGpt c5docNoContainer {} "now" =
      .error "Conversation container not found" ∧
    parseMessageCaught 3 (.error "boom") =
      (none, ["Message 3: Parse error - boom"]) ∧
    parseChatGpt c5docEmpty {} "now" = .ok
      { document :=
          { schemaVersion := "1.0"
            source := { url := "u", capturedAt := "now", platform := "chatgpt" }
            chat := { chatId := extractChatId "u", title := extractTitle c5docEmpty }
            messages := [] }
        warnings := ["No message blocks found"] } := by
  refine ⟨c5_error_taxonomy.1 c5docNoContainer {} "now" (by decide), ?_, ?_⟩
  · exact (c5_error_taxonomy.2.1 3 "boom").trans (by decide)
  · exact c5_error_taxonomy.2.2 c5docEmpty {} "now" [0, 0] (by decide) (by decide)

/-- The simple two-message conversation of the repository's test suite. -/
def c6doc : JSDocument where
  title := ""
  url := "https://chat.openai.com/c/abc123def456"
  root := .elem "html" [] [.elem "body" [] [.elem "main" []
    [.elem "div" [("data-message-id", "1"), ("data-role", "user")]
      [.elem "p" [] [.text "Hello, how are you?"]],
     .elem "div" [("data-message-id", "2"), ("data-role", "assistant")]
      [.elem "p" [] [.text "I'm doing well, thank you!"]]]]]

/-- The parse result of `c6doc` (the error branch is unreachable). -/
def c6res : ParserResult :=
  match parseChatGpt c6doc {} "T" with
  | .ok r => r
  | .error _ =>
    { document :=
        { schemaVersion := ""
          source := { url := "", capturedAt := "", platform := "" }
          chat := {}
          messages := [] }
      warnings := [] }

/-- C6 witness: the invariants at the concrete two-message parse. -/
theorem c6_parse_invariants_witness :
    (∀ m ∈ c6res.document.messages, m.parts ≠ []) ∧
    c6res.document.messages.Pairwise (fun a b => a.index < b.index) ∧
    (∀ m ∈ c6res.document.messages,
      ∃ cp p, findElement c6doc.root CONVERSATION_CONTAINER = some cp ∧
        (findElements (subD c6doc.root cp) MESSAGE_BLOCKS).get? m.index =
          some p ∧
        (parseMessage (subD c6doc.root cp) p m.index {}).1 = some m) :=
  c6_parse_invariants c6doc {} "T" c6res rfl

/-- A conversation whose message contains an anchor element: the anchor's
text survives in the text part, but no `link` part is produced. -/
def c10doc : JSDocument where
  title := ""
  url := ""
  root := .elem "html" [] [.elem "body" [] [.elem "main" []
    [.elem "div" [("data-message-id", "1"), ("data-role", "assistant")]
      [.elem "p" [] [.text "See the docs at "],
       .elem "a" [("href", "https://example.com")] [.text "this page"]]]]]

/-- The parse result of `c10doc` (the error branch is unreachable). -/
def c10res : ParserResult :=
  match parseChatGpt c10doc {} "T" with
  | .ok r => r
  | .error _ =>
    { document :=
        { schemaVersion := ""
          source := { url := "", capturedAt := "", platform := "" }
          chat := {}
          messages := [] }
      warnings := [] }

/-- C10 witness: the parse of a conversation containing an anchor yields
messages without `link` parts. -/
theorem c10_no_link_parts_witness :
    ∀ m ∈ c10res.document.messages, ∀ p ∈ m.parts, isLinkPart p = false :=
  c10_no_link_parts.2 c10doc {} "T" c10res rfl
